import Mathlib

/-!
Verification development for the Saarthi tracking server.

The embedding follows `server/intelligence.js` and the unified server file
(alert ledger, emergency endpoint, movement-history append).  The modules
`server/geo.js` and `server/crypto.js` are not part of the snapshot; per the
spec, `haversineDistance` is a deterministic great-circle distance and
`sha256` / signing are deterministic digests, so those primitives (together
with the floating-point trigonometric helpers `bearing` and the
forward-geodesic projection) are modelled as explicit function parameters.
All other logic is translated line by line from the JavaScript source.
-/

namespace Saarthi

/-- A movement-history sample `{lat, lon, ts}` as pushed by the
`cab_position` handler. -/
structure Sample where
  lat : ℚ
  lon : ℚ
  ts : ℤ
deriving Repr, DecidableEq

/-- Modelled from the spec: `geo.haversineDistance(lat1, lon1, lat2, lon2)`
(file `server/geo.js`, absent from the snapshot) is a deterministic
great-circle distance in kilometres; it is threaded through every definition
as an explicit function parameter. -/
abbrev Dist := ℚ → ℚ → ℚ → ℚ → ℚ

/-- A trace-chain entry as built by `buildTraceEntry` and completed by
`chainTrace` in `intelligence.js`. -/
structure TraceEntry where
  stationId : String
  stationName : String
  timestamp : ℤ
  prevHash : String
  hash : String
deriving Repr, DecidableEq

/-- The exact fields over which `chainTrace` computes the digest of a trace
entry (the payload spread at the moment `crypto.sha256(payload)` runs: the
`hash` field is still `null` there, so it carries no information). -/
structure TracePayload where
  stationId : String
  stationName : String
  timestamp : ℤ
  prevHash : String
deriving Repr, DecidableEq

/-- The digest input recorded in a trace entry. -/
def TraceEntry.payloadOf (e : TraceEntry) : TracePayload :=
  ⟨e.stationId, e.stationName, e.timestamp, e.prevHash⟩

/-- Modelled from the spec: `crypto.sha256` (file `server/crypto.js`, absent
from the snapshot) is a deterministic digest over its exact input fields. -/
abbrev TraceSha := TracePayload → String

/-- The per-agent trace-chain map `traceChain`; `traceChain.get(cabId) || []`
is modelled by a total function defaulting to `[]`. -/
abbrev TraceMap := String → List TraceEntry

/-- `chain.length > 0 ? chain[chain.length - 1].hash : "0"` from
`chainTrace`. -/
def chainTail (chain : List TraceEntry) : String :=
  match chain.getLast? with
  | some e => e.hash
  | none => "0"

/-- `chainTrace(traceChain, cabId, entry)` from `intelligence.js` lines
210-219, fused with `buildTraceEntry` (which supplies station id, name and
the timestamp): links the new entry to the tail hash (genesis `"0"`),
digests the payload, appends, and stores the chain back in the map. -/
def chainTrace (shaT : TraceSha) (m : TraceMap) (cabId : String)
    (stationId stationName : String) (timestamp : ℤ) : TraceMap :=
  let chain := m cabId
  let prevHash := chainTail chain
  let entry : TraceEntry :=
    ⟨stationId, stationName, timestamp, prevHash,
      shaT ⟨stationId, stationName, timestamp, prevHash⟩⟩
  fun id => if id = cabId then chain ++ [entry] else m id

/-- One `chainTrace` append as performed by the `cab_position` handler. -/
structure TraceOp where
  cabId : String
  stationId : String
  stationName : String
  timestamp : ℤ

/-- Folding a sequence of trace appends over the map, starting from any
state; the server starts from the empty map `new Map()`. -/
def applyTraceOps (shaT : TraceSha) (ops : List TraceOp) (m : TraceMap) :
    TraceMap :=
  ops.foldl (fun m op => chainTrace shaT m op.cabId op.stationId op.stationName op.timestamp) m

/-- Hash-linkage of a list of (prevHash, hash) pairs starting from a genesis
value: the first pair's `prevHash` is the genesis and every later pair's
`prevHash` is the previous pair's `hash`. -/
def linksFrom (g : String) : List (String × String) → Prop
  | [] => True
  | p :: rest => p.1 = g ∧ linksFrom p.2 rest

/-- The (prevHash, hash) pair of a trace entry. -/
def traceLinks (e : TraceEntry) : String × String := (e.prevHash, e.hash)

/-- Tail hash of a (prevHash, hash) list, seen from a genesis value. -/
def tailHash (g : String) : List (String × String) → String
  | [] => g
  | p :: rest => tailHash p.2 rest

/-- The emergency payload `{cabId, lat, lon, severity, ...}`; `lat`/`lon`
are optional because externally submitted payloads need not carry them
(the store-and-forward filter checks their truthiness). -/
structure EPayload where
  cabId : String
  lat : Option ℚ
  lon : Option ℚ
  severity : String
deriving Repr, DecidableEq

/-- The exact fields of an alert over which `createAndStoreAlert` computes
`crypto.sha256(alert)` (the `hash` and `signature` fields are assigned only
after the digest is taken). -/
structure AlertCore where
  id : String
  cabId : String
  lat : Option ℚ
  lon : Option ℚ
  severity : String
  source : String
  prevHash : String
  timestamp : ℤ
deriving Repr, DecidableEq

/-- A stored alert record: the digested core plus the digest and the
server-side signature added afterwards. -/
structure AlertRecord where
  id : String
  cabId : String
  lat : Option ℚ
  lon : Option ℚ
  severity : String
  source : String
  prevHash : String
  timestamp : ℤ
  hash : String
  signature : String
deriving Repr, DecidableEq

/-- The digest input recorded in an alert record. -/
def AlertRecord.coreOf (a : AlertRecord) : AlertCore :=
  ⟨a.id, a.cabId, a.lat, a.lon, a.severity, a.source, a.prevHash, a.timestamp⟩

/-- Modelled from the spec: `crypto.sha256` over an alert object. -/
abbrev AlertSha := AlertCore → String

/-- Modelled from the spec: `crypto.signEmergencyPayload` over the hashed
alert (arguments: digested core and its hash). -/
abbrev AlertSign := AlertCore → String → String

/-- The (prevHash, hash) pair of an alert record. -/
def alertLinks (a : AlertRecord) : String × String := (a.prevHash, a.hash)

/-- The global alert-ledger state: `alertBuffer` and the
`lastAlertHash.current` pointer (initially `"0"`). -/
structure AlertState where
  alertBuffer : List AlertRecord
  lastAlertHash : String
deriving Repr, DecidableEq

/-- The server's initial alert state: empty buffer, pointer `"0"`. -/
def initAlertState : AlertState := ⟨[], "0"⟩

/-- `createAndStoreAlert(payload, source)` from the unified server: builds
the record with `prevHash = lastAlertHash.current` and `timestamp = now`,
digests it, signs it, advances the global pointer and pushes the record onto
the buffer.  `now` is the `Date.now()` reading and `rand` the random id
suffix, both explicit parameters. -/
def createAndStoreAlert (shaA : AlertSha) (signA : AlertSign) (now : ℤ)
    (rand : String) (st : AlertState) (p : EPayload) (source : String) :
    AlertState × AlertRecord :=
  let core : AlertCore :=
    ⟨"alert_" ++ toString now ++ "_" ++ rand,
      p.cabId, p.lat, p.lon, p.severity, source, st.lastAlertHash, now⟩
  let h := shaA core
  let alert : AlertRecord :=
    ⟨core.id, core.cabId, core.lat, core.lon, core.severity, core.source,
      core.prevHash, core.timestamp, h, signA core h⟩
  (⟨st.alertBuffer ++ [alert], h⟩, alert)

/-- One `createAndStoreAlert` call (either the MANUAL `/api/emergency` path
or the AUTO silent-distress path — both go through the same function). -/
structure AlertOp where
  now : ℤ
  rand : String
  payload : EPayload
  source : String

/-- Folding a sequence of alert appends over the ledger state. -/
def applyAlertOps (shaA : AlertSha) (signA : AlertSign)
    (ops : List AlertOp) (st : AlertState) : AlertState :=
  ops.foldl (fun st op => (createAndStoreAlert shaA signA op.now op.rand st op.payload op.source).1) st

/-- Response of the `/api/emergency` endpoint: 401 invalid-signature
rejection, or 200 with the new alert id. -/
inductive EmergencyResponse where
  | rejected : EmergencyResponse
  | accepted : String → EmergencyResponse
deriving Repr, DecidableEq

/-- An outbound socket broadcast performed by the endpoint. -/
inductive Emit where
  | emergencyAlert : AlertRecord → Emit
deriving Repr, DecidableEq

/-- `app.post("/api/emergency")` from the unified server: picks the provided
signature (or, when absent/empty, the server's own signature of the payload,
`signP`), verifies it, and only on success stores and broadcasts the alert.
`verify` models `crypto.verifySignature`. -/
def postEmergency (shaA : AlertSha) (signA : AlertSign)
    (signP : EPayload → String) (verify : EPayload → String → Bool)
    (now : ℤ) (rand : String) (st : AlertState) (payload : EPayload)
    (signature : Option String) : AlertState × EmergencyResponse × List Emit :=
  let sigToVerify := match signature with
    | some s => s
    | none => signP payload
  if verify payload sigToVerify then
    let res := createAndStoreAlert shaA signA now rand st payload "MANUAL"
    (res.1, EmergencyResponse.accepted res.2.id, [Emit.emergencyAlert res.2])
  else
    (st, EmergencyResponse.rejected, [])

/-! Risk scoring (`intelligence.js`). -/

/-- The `MAIN_ROADS` table: `(lat1, lon1, lat2, lon2)` segments. -/
def MAIN_ROADS : List (ℚ × ℚ × ℚ × ℚ) :=
  [(12.97, 77.59, 12.98, 77.61),
   (12.92, 77.61, 12.93, 77.63),
   (12.96, 77.58, 12.97, 77.60),
   (12.84, 77.66, 12.86, 77.67),
   (12.96, 77.74, 12.97, 77.75)]

/-- The `ISOLATED_ZONES` table: `(latMin, latMax, lonMin, lonMax)` boxes. -/
def ISOLATED_ZONES : List (ℚ × ℚ × ℚ × ℚ) :=
  [(12.26, 12.28, 76.66, 76.68),
   (12.10, 12.35, 76.55, 76.75)]

/-- `distanceFromMainRoad(lat, lon)`: minimum haversine distance to the
midpoints of the road segments, starting from the sentinel 999. -/
def distanceFromMainRoad (dist : Dist) (lat lon : ℚ) : ℚ :=
  MAIN_ROADS.foldl
    (fun minDist r =>
      let d := dist lat lon ((r.1 + r.2.2.1) / 2) ((r.2.1 + r.2.2.2) / 2)
      if d < minDist then d else minDist)
    999

/-- `isInIsolatedZone(lat, lon)`: membership in any configured box. -/
def isInIsolatedZone (lat lon : ℚ) : Bool :=
  ISOLATED_ZONES.any fun z =>
    decide (z.1 ≤ lat) && decide (lat ≤ z.2.1) &&
    decide (z.2.2.1 ≤ lon) && decide (lon ≤ z.2.2.2)

/-- `timeOfDayRisk()`: the JS code reads `new Date().getHours()`; the
wall-clock hour is made an explicit parameter here. -/
def timeOfDayRisk (h : ℕ) : ℚ :=
  if 22 ≤ h ∨ h ≤ 5 then 25
  else if 21 ≤ h ∨ h ≤ 6 then 15
  else 0

/-- Sum of haversine distances between consecutive samples (the
`actualDist` accumulation loop). -/
def pathLength (dist : Dist) : List Sample → ℚ
  | a :: b :: rest => dist a.lat a.lon b.lat b.lon + pathLength dist (b :: rest)
  | _ => 0

/-- The route-deviation percentage of `computeRiskScore`:
`Math.max(0, ((actualDist - straightDist) / straightDist) * 100)` guarded by
`straightDist > 0`. -/
def deviationPct (dist : Dist) (h : List Sample) : ℚ :=
  match h.head?, h.getLast? with
  | some s, some e =>
    let straight := dist s.lat s.lon e.lat e.lon
    let actual := pathLength dist h
    if 0 < straight then max 0 ((actual - straight) / straight * 100) else 0
  | _, _ => 0

/-- The deviation contribution of `computeRiskScore`:
`Math.min(30, deviationPct) * (weights.deviation * 100 / 30)` when the
history has at least 3 samples, with `weights.deviation = 0.25`. -/
def deviationScore (dist : Dist) (h : List Sample) : ℚ :=
  if 3 ≤ h.length then min 30 (deviationPct dist h) * (0.25 * 100 / 30) else 0

/-- Modelled from the spec: `bearing(lat1, lon1, lat2, lon2)` in
`intelligence.js` computes the initial great-circle bearing with
floating-point trigonometry; it enters the development as an abstract
real-valued parameter of the same shape as `Dist`. -/
abbrev Bearing := ℚ → ℚ → ℚ → ℚ → ℚ

/-- The stop-penalty accumulation over consecutive pairs of the recent
window: `+15` whenever `dt > 60000` and displacement `< 0.05` km. -/
def stopScoreAux (dist : Dist) : List Sample → ℚ
  | a :: b :: rest =>
    (if 60000 < b.ts - a.ts ∧ dist a.lat a.lon b.lat b.lon < 0.05 then 15 else 0)
      + stopScoreAux dist (b :: rest)
  | _ => 0

/-- The zig-zag accumulation over consecutive triples of the recent window:
`+8` whenever the bearing change exceeds 90 degrees. -/
def zigzagAux (bear : Bearing) : List Sample → ℚ
  | a :: b :: c :: rest =>
    (if 90 < |bear b.lat b.lon c.lat c.lon - bear a.lat a.lon b.lat b.lon| then 8 else 0)
      + zigzagAux bear (b :: c :: rest)
  | _ => 0

/-- The kinematic-anomaly contribution of `computeRiskScore`: over
`history.slice(-5)`, `Math.min(25, stopScore + zigzagScore)` when the
history has at least 3 samples. -/
def kinematicScore (dist : Dist) (bear : Bearing) (h : List Sample) : ℚ :=
  if 3 ≤ h.length then
    let recent := h.drop (h.length - 5)
    min 25 (stopScoreAux dist recent + zigzagAux bear recent)
  else 0

/-- The road-proximity contribution: `15` beyond 5 km from the nearest
arterial midpoint, `8` beyond 2 km, else `0` (applies when a last sample
exists). -/
def roadScore (dist : Dist) (h : List Sample) : ℚ :=
  match h.getLast? with
  | none => 0
  | some last =>
    let rd := distanceFromMainRoad dist last.lat last.lon
    if 5 < rd then 15 else if 2 < rd then 8 else 0

/-- The isolated-zone contribution: flat `20` when the last sample lies in a
configured low-density box. -/
def isolatedScore (h : List Sample) : ℚ :=
  match h.getLast? with
  | none => 0
  | some last => if isInIsolatedZone last.lat last.lon then 20 else 0

/-- `computeRiskScore(cabId, movementHistory, traceChain)` from
`intelligence.js` lines 59-110.  The movement-history and trace-chain maps
are total functions (the `|| []` defaults); the trace chain is read but
never used by the source, and the wall-clock hour consumed by
`timeOfDayRisk` is an explicit parameter. -/
def computeRiskScore (dist : Dist) (bear : Bearing) (hour : ℕ)
    (cabId : String) (movementHistory : String → List Sample)
    (traceChain : TraceMap) : ℤ :=
  let history := movementHistory cabId
  let score := timeOfDayRisk hour * 0.2
    + deviationScore dist history
    + kinematicScore dist bear history
    + roadScore dist history
    + isolatedScore history
  min 100 (round score)

/-! Silent-distress triggers (`checkSilentDistress`). -/

/-- The second-to-last sample `history[history.length - 2]`. -/
def prevSample (h : List Sample) : Option Sample := h.dropLast.getLast?

/-- The STOPPED_EXTENDED condition exactly as coded: `Date.now() - last.ts`
exceeds `STOP_THRESHOLD_MINUTES * 60 * 1000 = 180000` and the displacement
between the last two samples is below 0.05 km. -/
def stoppedExtendedCond (dist : Dist) (now : ℤ) (h : List Sample) : Bool :=
  match h.getLast?, prevSample h with
  | some last, some prev =>
    decide (180000 < now - last.ts) &&
    decide (dist prev.lat prev.lon last.lat last.lon < 0.05)
  | _, _ => false

/-- The route-deviation percentage of `checkSilentDistress` (unlike the
scorer's, not clamped below by 0). -/
def rawDeviationPct (dist : Dist) (h : List Sample) : ℚ :=
  match h.head?, h.getLast? with
  | some s, some e =>
    let straight := dist s.lat s.lon e.lat e.lon
    let actual := pathLength dist h
    if 0 < straight then (actual - straight) / straight * 100 else 0
  | _, _ => 0

/-- The count of near-zero-displacement legs (`< 0.02` km) over consecutive
pairs of the last-4 window. -/
def stopStartsCount (dist : Dist) : List Sample → ℕ
  | a :: b :: rest =>
    (if dist a.lat a.lon b.lat b.lon < 0.02 then 1 else 0)
      + stopStartsCount dist (b :: rest)
  | _ => 0

/-- Whether the latest sample lies in an isolated zone. -/
def lastInIsolated (h : List Sample) : Bool :=
  match h.getLast? with
  | some last => isInIsolatedZone last.lat last.lon
  | none => false

/-- `checkSilentDistress(cabId, movementHistory, traceChain, riskScore)`
from `intelligence.js` lines 148-197, with the two `Date.now()` readings
made the explicit parameter `now`: RISK_CRITICAL at score ≥ 75;
STOPPED_EXTENDED per `stoppedExtendedCond`; ROUTE_DEVIATION above 40%;
ABNORMAL_HOPPING at ≥ 3 trace entries younger than 120 s; and
STOP_START_ISOLATED at ≥ 2 short legs among the last 3 with the latest
sample isolated. -/
def checkSilentDistress (dist : Dist) (now : ℤ) (cabId : String)
    (movementHistory : String → List Sample) (traceChain : TraceMap)
    (riskScore : ℤ) : List String :=
  let history := movementHistory cabId
  let trace := traceChain cabId
  (if 75 ≤ riskScore then ["RISK_CRITICAL"] else [])
  ++ (if 2 ≤ history.length then
        (if stoppedExtendedCond dist now history then ["STOPPED_EXTENDED"] else [])
        ++ (if 40 < rawDeviationPct dist history then ["ROUTE_DEVIATION"] else [])
      else [])
  ++ (if 3 ≤ (trace.filter fun t => decide (now - t.timestamp < 120000)).length
      then ["ABNORMAL_HOPPING"] else [])
  ++ (if 4 ≤ history.length ∧
        2 ≤ stopStartsCount dist (history.drop (history.length - 4)) ∧
        lastInIsolated history = true
      then ["STOP_START_ISOLATED"] else [])

/-! Handoff prediction (`predictNextStation`). -/

/-- A jurisdiction zone as returned by `geo.getOwningStation`. -/
structure Station where
  id : String
  name : String
deriving Repr, DecidableEq

/-- `predictNextStation(cabId, movementHistory, stations)` from
`intelligence.js` lines 121-145.  `own` models `geo.getOwningStation`
(absent `geo.js`); `projLat`/`projLon` model the floating-point
forward-geodesic projection of the last two samples (speed, bearing,
clamped horizon, destination-point formula).  The guards — fewer than two
samples, and `dt = (last.ts - prev.ts)/1000 ≤ 0` — are exactly the
source's. -/
def predictNextStation (own : ℚ → ℚ → Station)
    (projLat projLon : Sample → Sample → ℚ) (cabId : String)
    (movementHistory : String → List Sample) : Option Station :=
  let history := movementHistory cabId
  if history.length < 2 then none
  else
    match history.getLast?, prevSample history with
    | some last, some prev =>
      let dt : ℚ := ((last.ts - prev.ts : ℤ) : ℚ) / 1000
      if dt ≤ 0 then none
      else
        let current := own last.lat last.lon
        let predicted := own (projLat prev last) (projLon prev last)
        if predicted.id ≠ current.id then some predicted else none
    | _, _ => none

/-! Movement-history append and store-and-forward filter (unified server). -/

/-- The history append of the `cab_position` handler:
`hist.push({lat, lon, ts: now}); if (hist.length > 20) hist = hist.slice(-20)`. -/
def appendPosition (h : List Sample) (s : Sample) : List Sample :=
  if 20 < (h ++ [s]).length then (h ++ [s]).drop ((h ++ [s]).length - 20) else h ++ [s]

/-- Non-decreasing timestamps along a history. -/
def tsSorted (h : List Sample) : Prop :=
  List.Chain' (fun a b : Sample => a.ts ≤ b.ts) h

/-- A zone record from `geo.getStations()` (modelled from the spec: static
registry with unique ids and a centre point; `geo.js` is absent from the
snapshot). -/
structure Zone where
  id : String
  lat : ℚ
  lon : ℚ
deriving Repr, DecidableEq

/-- The predicate of `forwardPendingAlertsToStation`'s filter:
`if (!a.lat || !a.lon) return false;` then haversine distance to the
station centre `≤ 2.0` — note the JS truthiness test excludes a latitude or
longitude equal to 0. -/
def pendingPred (dist : Dist) (stLat stLon : ℚ) (a : AlertRecord) : Bool :=
  match a.lat, a.lon with
  | some la, some lo =>
    decide (la ≠ 0) && decide (lo ≠ 0) && decide (dist la lo stLat stLon ≤ 2)
  | _, _ => false

/-- `forwardPendingAlertsToStation(stationId)` from the unified server,
restricted to the records it selects for replay: looks the station up in
the registry and filters the buffer by `pendingPred` (when the station id
is unknown the function returns without forwarding anything). -/
def forwardPendingAlertsToStation (dist : Dist) (stations : List Zone)
    (buffer : List AlertRecord) (stationId : String) : List AlertRecord :=
  match stations.find? (fun s => s.id = stationId) with
  | none => []
  | some st => buffer.filter (pendingPred dist st.lat st.lon)

/-! Ledger invariants. -/

/-- The alert-ledger invariant: the buffer is hash-linked from the genesis
`"0"` and the global pointer equals the tail hash of the buffer. -/
def alertInv (st : AlertState) : Prop :=
  linksFrom "0" (st.alertBuffer.map alertLinks) ∧
  st.lastAlertHash = tailHash "0" (st.alertBuffer.map alertLinks)

/-! Concrete instantiations used for closed evaluations. -/

/-- The everywhere-zero distance (consistent with the haversine property
that the distance of a point to itself is zero). -/
def dzero : Dist := fun _ _ _ _ => 0

/-- A concrete injective-looking trace digest. -/
def shaTc : TraceSha := fun p => "h(" ++ p.stationId ++ "|" ++ p.prevHash ++ ")"

/-- Two zone-change appends for one cab. -/
def opsTc : List TraceOp := [⟨"cab", "s1", "S1", 1⟩, ⟨"cab", "s2", "S2", 2⟩]

/-- The trace chain built by the two appends from the empty map. -/
def chainC : List TraceEntry := applyTraceOps shaTc opsTc (fun _ => []) "cab"

/-- A concrete alert digest. -/
def shaAc : AlertSha := fun c => "H(" ++ c.id ++ "|" ++ c.prevHash ++ ")"

/-- A concrete alert signer. -/
def signAc : AlertSign := fun _ h => "sig:" ++ h

/-- A concrete emergency payload. -/
def pay1 : EPayload := ⟨"cab", some (12.9 : ℚ), some (77.5 : ℚ), "HIGH"⟩

/-- One AUTO and one MANUAL alert append. -/
def opsAc : List AlertOp := [⟨1, "r1", pay1, "AUTO"⟩, ⟨2, "r2", pay1, "MANUAL"⟩]

/-- The ledger state after the two appends. -/
def stC : AlertState := applyAlertOps shaAc signAc opsAc initAlertState

/-- Two samples at the same spot, ten minutes apart. -/
def histStop : List Sample := [⟨12.9, 77.5, 0⟩, ⟨12.9, 77.5, 600000⟩]

/-- A movement-history map holding `histStop` for every cab. -/
def mhStop : String → List Sample := fun _ => histStop

/-- The empty movement-history map. -/
def emptyHist : String → List Sample := fun _ => []

/-- The empty trace-chain map. -/
def emptyTrace : TraceMap := fun _ => []

/-- A concrete taxicab distance function. -/
def distM : Dist := fun la lo lb lob => |la - lb| + |lo - lob|

/-- A 3-sample history whose polyline is far longer than its chord. -/
def histDev : List Sample := [⟨0, 0, 0⟩, ⟨10, 0, 1⟩, ⟨1, 0, 2⟩]

/-- A buffered alert whose recorded latitude is exactly 0. -/
def alertAtZeroLat : AlertRecord :=
  ⟨"a1", "cab", some 0, some 77, "HIGH", "MANUAL", "0", 0, "h", "s"⟩

/-- A single zone centred at latitude 0, longitude 77. -/
def zonesC : List Zone := [⟨"z1", 0, 77⟩]

/-- A buffered alert with nonzero coordinates. -/
def alertInside : AlertRecord :=
  ⟨"a2", "cab", some (12.9 : ℚ), some (77.5 : ℚ), "HIGH", "MANUAL", "0", 0, "h", "s"⟩

/-- A single zone centred at the alert's coordinates. -/
def zonesB : List Zone := [⟨"z1", 12.9, 77.5⟩]

/-- A two-sample sorted history. -/
def histTwo : List Sample := [⟨0, 0, 0⟩, ⟨0, 0, 1⟩]

/-- A later sample to append. -/
def sampleNew : Sample := ⟨0, 0, 2⟩

/-- A constant owning-zone resolver. -/
def ownC : ℚ → ℚ → Station := fun _ _ => ⟨"s1", "S1"⟩

/-- A constant projection coordinate. -/
def projZ : Sample → Sample → ℚ := fun _ _ => 0

/-- A history whose last sample is older than its predecessor. -/
def mhBack : String → List Sample := fun _ => [⟨0, 0, 5⟩, ⟨0, 0, 3⟩]

/-- A verifier that rejects everything. -/
def verifyF : EPayload → String → Bool := fun _ _ => false

/-- A constant payload signer. -/
def signPc : EPayload → String := fun _ => "sp"

/-! Helper lemmas on hash linkage. -/

theorem tailHash_append (g : String) (c : List (String × String)) (p : String × String) :
    tailHash g (c ++ [p]) = p.2 := by
  induction c generalizing g with
  | nil => rfl
  | cons q rest ih => simpa [tailHash] using ih q.2

theorem linksFrom_append (g : String) (c : List (String × String)) (p : String × String)
    (hc : linksFrom g c) (hp : p.1 = tailHash g c) : linksFrom g (c ++ [p]) := by
  induction c generalizing g with
  | nil => exact ⟨hp, trivial⟩
  | cons q rest ih => exact ⟨hc.1, ih q.2 hc.2 hp⟩

theorem chainTail_eq_tailHash (g : String) (chain : List TraceEntry) :
    (match chain.getLast? with
      | some e => e.hash
      | none => g) = tailHash g (chain.map traceLinks) := by
  induction chain generalizing g with
  | nil => rfl
  | cons e rest ih =>
    cases rest with
    | nil => rfl
    | cons f r =>
      have := ih (g := e.hash)
      simpa [tailHash, traceLinks, List.getLast?_cons_cons] using this

theorem chainTrace_linked (shaT : TraceSha) (m : TraceMap) (cabId sI sN : String)
    (ts : ℤ) (hm : ∀ i, linksFrom "0" ((m i).map traceLinks)) :
    ∀ i, linksFrom "0" (((chainTrace shaT m cabId sI sN ts) i).map traceLinks) := by
  intro i
  unfold chainTrace
  by_cases hi : i = cabId
  · simp only [hi, eq_self_iff_true, if_true, List.map_append, List.map_cons, List.map_nil]
    refine linksFrom_append _ _ _ (hm cabId) ?_
    simpa [traceLinks, chainTail] using chainTail_eq_tailHash "0" (m cabId)
  · simpa [hi] using hm i

theorem applyTraceOps_linked (shaT : TraceSha) (ops : List TraceOp) (m : TraceMap)
    (hm : ∀ i, linksFrom "0" ((m i).map traceLinks)) :
    ∀ i, linksFrom "0" (((applyTraceOps shaT ops m) i).map traceLinks) := by
  induction ops generalizing m with
  | nil => exact hm
  | cons op rest ih =>
    exact ih _ (chainTrace_linked shaT m op.cabId op.stationId op.stationName op.timestamp hm)

theorem createAndStoreAlert_inv (shaA : AlertSha) (signA : AlertSign) (now : ℤ)
    (rand : String) (st : AlertState) (p : EPayload) (source : String)
    (h : alertInv st) :
    alertInv (createAndStoreAlert shaA signA now rand st p source).1 := by
  obtain ⟨hlink, hptr⟩ := h
  unfold createAndStoreAlert
  constructor
  · simp only [List.map_append, List.map_cons, List.map_nil]
    exact linksFrom_append _ _ _ hlink (by simpa [alertLinks] using hptr)
  · simp only [List.map_append, List.map_cons, List.map_nil]
    rw [tailHash_append]
    rfl

theorem applyAlertOps_inv (shaA : AlertSha) (signA : AlertSign) (ops : List AlertOp)
    (st : AlertState) (h : alertInv st) :
    alertInv (applyAlertOps shaA signA ops st) := by
  induction ops generalizing st with
  | nil => exact h
  | cons op rest ih =>
    exact ih _ (createAndStoreAlert_inv shaA signA op.now op.rand st op.payload op.source h)

theorem alertInv_init : alertInv initAlertState := ⟨trivial, rfl⟩

theorem linksFrom_head (g : String) (c : List (String × String)) (hc : linksFrom g c)
    (h0 : 0 < c.length) : (c.get ⟨0, h0⟩).1 = g := by
  cases c with
  | nil => simp at h0
  | cons p rest => exact hc.1

theorem linksFrom_get (g : String) (c : List (String × String)) (hc : linksFrom g c) :
    ∀ i (hi : i + 1 < c.length),
      (c.get ⟨i + 1, hi⟩).1 = (c.get ⟨i, Nat.lt_of_succ_lt hi⟩).2 := by
  induction c generalizing g with
  | nil => intro i hi; simp at hi
  | cons p rest ih =>
    intro i hi
    cases i with
    | zero =>
      have h0 : 0 < rest.length := by simpa using Nat.lt_of_succ_lt_succ hi
      simpa using linksFrom_head p.2 rest hc.2 h0
    | succ j =>
      have hj : j + 1 < rest.length := by simpa using Nat.lt_of_succ_lt_succ hi
      simpa using ih p.2 hc.2 j hj

/-! Claim theorems. -/

/-- Claim C1: for every per-agent trace chain built by `chainTrace` appends
from the empty map, and for the global alert chain built by
`createAndStoreAlert` appends from the initial ledger state, whenever the
chain is non-empty the first entry's `prevHash` is the genesis `"0"` and
every later entry's `prevHash` equals the immediately preceding entry's
`hash`. -/
theorem chain_linkage_invariant :
    (∀ (shaT : TraceSha) (ops : List TraceOp) (cabId : String),
      let chain := applyTraceOps shaT ops (fun _ => []) cabId
      (∀ h0 : 0 < chain.length, (chain.get ⟨0, h0⟩).prevHash = "0") ∧
      ∀ i (hi : i + 1 < chain.length),
        (chain.get ⟨i + 1, hi⟩).prevHash = (chain.get ⟨i, Nat.lt_of_succ_lt hi⟩).hash) ∧
    (∀ (shaA : AlertSha) (signA : AlertSign) (ops : List AlertOp),
      let buf := (applyAlertOps shaA signA ops initAlertState).alertBuffer
      (∀ h0 : 0 < buf.length, (buf.get ⟨0, h0⟩).prevHash = "0") ∧
      ∀ i (hi : i + 1 < buf.length),
        (buf.get ⟨i + 1, hi⟩).prevHash = (buf.get ⟨i, Nat.lt_of_succ_lt hi⟩).hash) := by
  constructor
  · intro shaT ops cabId
    have hlink := applyTraceOps_linked shaT ops (fun _ => []) (fun _ => trivial) cabId
    set chain := applyTraceOps shaT ops (fun _ => []) cabId with hchain
    constructor
    · intro h0
      have h0m : 0 < (chain.map traceLinks).length := by simpa using h0
      have := linksFrom_head "0" (chain.map traceLinks) hlink h0m
      simpa [List.get_map, traceLinks] using this
    · intro i hi
      have him : i + 1 < (chain.map traceLinks).length := by simpa using hi
      have := linksFrom_get "0" (chain.map traceLinks) hlink i him
      simpa [List.get_map, traceLinks] using this
  · intro shaA signA ops
    have hinv := applyAlertOps_inv shaA signA ops initAlertState alertInv_init
    set buf := (applyAlertOps shaA signA ops initAlertState).alertBuffer with hbuf
    constructor
    · intro h0
      have h0m : 0 < (buf.map alertLinks).length := by simpa using h0
      have := linksFrom_head "0" (buf.map alertLinks) hinv.1 h0m
      simpa [List.get_map, alertLinks] using this
    · intro i hi
      have him : i + 1 < (buf.map alertLinks).length := by simpa using hi
      have := linksFrom_get "0" (buf.map alertLinks) hinv.1 i him
      simpa [List.get_map, alertLinks] using this

/-- Witness for C1: on the concrete two-append trace chain and two-append
alert buffer, the second entry's `prevHash` is the first entry's `hash`. -/
theorem chain_linkage_invariant_witness :
    (chainC.get ⟨0 + 1, by decide⟩).prevHash =
      (chainC.get ⟨0, Nat.lt_of_succ_lt (by decide)⟩).hash ∧
    (stC.alertBuffer.get ⟨0 + 1, by decide⟩).prevHash =
      (stC.alertBuffer.get ⟨0, Nat.lt_of_succ_lt (by decide)⟩).hash :=
  ⟨(chain_linkage_invariant.1 shaTc opsTc "cab").2 0 (by decide),
   (chain_linkage_invariant.2 shaAc signAc opsAc).2 0 (by decide)⟩

theorem chainTrace_hashes (shaT : TraceSha) (m : TraceMap) (cabId sI sN : String)
    (ts : ℤ) (hm : ∀ i, ∀ e ∈ m i, e.hash = shaT e.payloadOf) :
    ∀ i, ∀ e ∈ (chainTrace shaT m cabId sI sN ts) i, e.hash = shaT e.payloadOf := by
  intro i e he
  unfold chainTrace at he
  by_cases hi : i = cabId
  · simp only [hi, eq_self_iff_true, if_true, List.mem_append, List.mem_singleton] at he
    rcases he with he | he
    · exact hm cabId e he
    · subst he; rfl
  · simp only [hi, if_false] at he
    exact hm i e he

theorem applyTraceOps_hashes (shaT : TraceSha) (ops : List TraceOp) (m : TraceMap)
    (hm : ∀ i, ∀ e ∈ m i, e.hash = shaT e.payloadOf) :
    ∀ i, ∀ e ∈ (applyTraceOps shaT ops m) i, e.hash = shaT e.payloadOf := by
  induction ops generalizing m with
  | nil => exact hm
  | cons op rest ih =>
    exact ih _ (chainTrace_hashes shaT m op.cabId op.stationId op.stationName op.timestamp hm)

theorem createAndStoreAlert_hashes (shaA : AlertSha) (signA : AlertSign) (now : ℤ)
    (rand : String) (st : AlertState) (p : EPayload) (source : String)
    (hm : ∀ a ∈ st.alertBuffer, a.hash = shaA a.coreOf) :
    ∀ a ∈ (createAndStoreAlert shaA signA now rand st p source).1.alertBuffer,
      a.hash = shaA a.coreOf := by
  intro a ha
  unfold createAndStoreAlert at ha
  simp only [List.mem_append, List.mem_singleton] at ha
  rcases ha with ha | ha
  · exact hm a ha
  · subst ha; rfl

theorem applyAlertOps_hashes (shaA : AlertSha) (signA : AlertSign) (ops : List AlertOp)
    (st : AlertState) (hm : ∀ a ∈ st.alertBuffer, a.hash = shaA a.coreOf) :
    ∀ a ∈ (applyAlertOps shaA signA ops st).alertBuffer, a.hash = shaA a.coreOf := by
  induction ops generalizing st with
  | nil => exact hm
  | cons op rest ih =>
    exact ih _ (createAndStoreAlert_hashes shaA signA op.now op.rand st op.payload op.source hm)

/-- Claim C6: tamper detection by re-hashing — every entry of every trace
chain built by `chainTrace` appends, and every record of the alert buffer
built by `createAndStoreAlert` appends, stores as `hash` exactly the digest
of its recorded fields (`TraceEntry.payloadOf`, resp. `AlertRecord.coreOf`),
so recomputing the digest reproduces the stored hash. -/
theorem rehash_reproduces_stored_hash :
    (∀ (shaT : TraceSha) (ops : List TraceOp) (cabId : String),
      ∀ e ∈ applyTraceOps shaT ops (fun _ => []) cabId, e.hash = shaT e.payloadOf) ∧
    (∀ (shaA : AlertSha) (signA : AlertSign) (ops : List AlertOp),
      ∀ a ∈ (applyAlertOps shaA signA ops initAlertState).alertBuffer,
        a.hash = shaA a.coreOf) := by
  constructor
  · intro shaT ops cabId
    exact applyTraceOps_hashes shaT ops (fun _ => []) (by intro i e he; simp at he) cabId
  · intro shaA signA ops
    exact applyAlertOps_hashes shaA signA ops initAlertState (by intro a ha; simp [initAlertState] at ha)

/-- Witness for C6: the first entry of the concrete trace chain and the
first record of the concrete alert buffer re-hash to their stored hashes. -/
theorem rehash_reproduces_stored_hash_witness :
    (chainC.get ⟨0, by decide⟩).hash = shaTc (chainC.get ⟨0, by decide⟩).payloadOf ∧
    (stC.alertBuffer.get ⟨0, by decide⟩).hash =
      shaAc (stC.alertBuffer.get ⟨0, by decide⟩).coreOf :=
  ⟨rehash_reproduces_stored_hash.1 shaTc opsTc "cab" _ (List.get_mem chainC 0 (by decide)),
   rehash_reproduces_stored_hash.2 shaAc signAc opsAc _
     (List.get_mem stC.alertBuffer 0 (by decide))⟩

/-! Sub-score bounds. -/

theorem timeOfDayRisk_bounds (h : ℕ) : 0 ≤ timeOfDayRisk h ∧ timeOfDayRisk h ≤ 25 := by
  unfold timeOfDayRisk
  split
  · norm_num
  · split <;> norm_num

theorem deviationPct_nonneg (dist : Dist) (h : List Sample) : 0 ≤ deviationPct dist h := by
  unfold deviationPct
  cases h.head? <;> cases h.getLast? <;> simp
  split
  · exact le_max_left 0 _
  · exact le_refl 0

theorem deviationScore_bounds (dist : Dist) (h : List Sample) :
    0 ≤ deviationScore dist h ∧ deviationScore dist h ≤ 25 := by
  unfold deviationScore
  split
  · have h0 : 0 ≤ min 30 (deviationPct dist h) :=
      le_min (by norm_num) (deviationPct_nonneg dist h)
    have h30 : min 30 (deviationPct dist h) ≤ 30 := min_le_left _ _
    constructor <;> nlinarith
  · norm_num

theorem stopScoreAux_nonneg (dist : Dist) : ∀ l : List Sample, 0 ≤ stopScoreAux dist l
  | [] => le_refl 0
  | [_] => le_refl 0
  | _ :: b :: rest => by
    have := stopScoreAux_nonneg dist (b :: rest)
    unfold stopScoreAux
    split <;> linarith

theorem zigzagAux_nonneg (bear : Bearing) : ∀ l : List Sample, 0 ≤ zigzagAux bear l
  | [] => le_refl 0
  | [_] => le_refl 0
  | [_, _] => le_refl 0
  | _ :: b :: c :: rest => by
    have := zigzagAux_nonneg bear (b :: c :: rest)
    unfold zigzagAux
    split <;> linarith

theorem kinematicScore_bounds (dist : Dist) (bear : Bearing) (h : List Sample) :
    0 ≤ kinematicScore dist bear h ∧ kinematicScore dist bear h ≤ 25 := by
  unfold kinematicScore
  split
  · refine ⟨le_min (by norm_num) ?_, min_le_left _ _⟩
    have h1 := stopScoreAux_nonneg dist (h.drop (h.length - 5))
    have h2 := zigzagAux_nonneg bear (h.drop (h.length - 5))
    linarith
  · norm_num

theorem roadScore_bounds (dist : Dist) (h : List Sample) :
    0 ≤ roadScore dist h ∧ roadScore dist h ≤ 15 := by
  unfold roadScore
  cases h.getLast? <;> simp
  constructor
  · split
    · norm_num
    · split <;> norm_num
  · split
    · norm_num
    · split <;> norm_num

theorem isolatedScore_bounds (h : List Sample) :
    0 ≤ isolatedScore h ∧ isolatedScore h ≤ 20 := by
  unfold isolatedScore
  cases h.getLast? <;> simp
  split <;> norm_num

/-- Claim C2: for every agent id, every movement-history map, every
trace-chain map (and any distance/bearing primitives and wall-clock hour),
`computeRiskScore` returns an integer in the closed interval [0, 100] —
including for histories of length 0 or 1. -/
theorem computeRiskScore_in_range (dist : Dist) (bear : Bearing) (hour : ℕ)
    (cabId : String) (movementHistory : String → List Sample) (traceChain : TraceMap) :
    0 ≤ computeRiskScore dist bear hour cabId movementHistory traceChain ∧
    computeRiskScore dist bear hour cabId movementHistory traceChain ≤ 100 := by
  unfold computeRiskScore
  set history := movementHistory cabId with hh
  obtain ⟨t0, t25⟩ := timeOfDayRisk_bounds hour
  obtain ⟨d0, d25⟩ := deviationScore_bounds dist history
  obtain ⟨k0, k25⟩ := kinematicScore_bounds dist bear history
  obtain ⟨r0, r15⟩ := roadScore_bounds dist history
  obtain ⟨i0, i20⟩ := isolatedScore_bounds history
  set S : ℚ := timeOfDayRisk hour * 0.2 + deviationScore dist history
    + kinematicScore dist bear history + roadScore dist history
    + isolatedScore history with hS
  have hS0 : (0 : ℚ) ≤ S := by rw [hS]; nlinarith
  constructor
  · refine le_min (by norm_num) ?_
    rw [round_eq, Int.le_floor]
    push_cast
    linarith
  · exact min_le_left _ _

/-- Counterexample to C7 as stated: `computeRiskScore` is not a function of
history, trace chain and agent id alone — the time-of-day sub-score reads
the ambient wall clock (`new Date().getHours()`), so two evaluations on the
identical empty history, empty trace chain and agent id return different
scores at hour 23 and hour 12. -/
theorem computeRiskScore_wall_clock_dependent :
    computeRiskScore dzero dzero 23 "cab" emptyHist emptyTrace ≠
      computeRiskScore dzero dzero 12 "cab" emptyHist emptyTrace := by
  have h1 : computeRiskScore dzero dzero 23 "cab" emptyHist emptyTrace = 5 := by
    norm_num [computeRiskScore, timeOfDayRisk, deviationScore, kinematicScore, roadScore,
      isolatedScore, emptyHist, emptyTrace, dzero, round_eq]
  have h2 : computeRiskScore dzero dzero 12 "cab" emptyHist emptyTrace = 0 := by
    norm_num [computeRiskScore, timeOfDayRisk, deviationScore, kinematicScore, roadScore,
      isolatedScore, emptyHist, emptyTrace, dzero, round_eq]
  rw [h1, h2]
  decide

/-- Claim C7 (amended): every sub-score other than time-of-day is a pure
function of the history and the static reference tables, and
`computeRiskScore` depends on ambient state only through the wall-clock
hour read by `timeOfDayRisk` — two evaluations on identical history, trace
chain and agent id whose hours carry the same time-of-day risk return the
same score. -/
theorem computeRiskScore_deterministic_given_hour (dist : Dist) (bear : Bearing)
    (h1 h2 : ℕ) (cabId : String) (movementHistory : String → List Sample)
    (traceChain : TraceMap) (htod : timeOfDayRisk h1 = timeOfDayRisk h2) :
    computeRiskScore dist bear h1 cabId movementHistory traceChain =
      computeRiskScore dist bear h2 cabId movementHistory traceChain := by
  unfold computeRiskScore
  rw [htod]

/-- Witness for the amended C7: hours 22 and 23 carry the same time-of-day
risk, so the scores agree. -/
theorem computeRiskScore_deterministic_given_hour_witness :
    computeRiskScore dzero dzero 22 "cab" emptyHist emptyTrace =
      computeRiskScore dzero dzero 23 "cab" emptyHist emptyTrace :=
  computeRiskScore_deterministic_given_hour dzero dzero 22 23 "cab" emptyHist emptyTrace
    (by norm_num [timeOfDayRisk])

/-- Counterexample to C5 as stated: on a concrete 3-sample history the
deviation signal contributes strictly more than 30 · 0.25 = 7.5 points —
the code multiplies the capped percent by `0.25 * 100 / 30`, not by 0.25,
so the contribution reaches 25. -/
theorem deviationScore_exceeds_quarter_weight :
    (30 : ℚ) * 0.25 < deviationScore distM histDev := by
  have h : deviationScore distM histDev = 25 := by
    norm_num [deviationScore, deviationPct, pathLength, distM, histDev]
  rw [h]
  norm_num

/-- Claim C5 (amended): the path-deviation signal requires at least 3
samples (it is 0 below that); it equals the deviation percent capped at 30,
scaled by the normalisation factor `0.25 * 100 / 30 = 25/30`, and therefore
contributes at most `30 * (25/30) = 25` points to the composite score. -/
theorem deviationScore_characterization (dist : Dist) (h : List Sample) :
    (h.length < 3 → deviationScore dist h = 0) ∧
    0 ≤ deviationScore dist h ∧ deviationScore dist h ≤ 25 ∧
    (3 ≤ h.length →
      deviationScore dist h = min 30 (deviationPct dist h) * (25 / 30)) := by
  obtain ⟨h0, h25⟩ := deviationScore_bounds dist h
  refine ⟨?_, h0, h25, ?_⟩
  · intro hlt
    unfold deviationScore
    rw [if_neg (by omega)]
  · intro hge
    unfold deviationScore
    rw [if_pos hge]
    norm_num

/-- Witness for the amended C5: the empty history scores 0, and on the
concrete 3-sample history the signal equals the capped percent times
25/30. -/
theorem deviationScore_characterization_witness :
    deviationScore distM [] = 0 ∧
    deviationScore distM histDev = min 30 (deviationPct distM histDev) * (25 / 30) :=
  ⟨(deviationScore_characterization distM []).1 (by norm_num),
   (deviationScore_characterization distM histDev).2.2.2 (by norm_num [histDev])⟩

/-- Claim C4 evaluation at the failing input: two samples at the same spot
ten minutes apart, evaluated at the moment the second sample was appended
(`now = last.ts = 600000`, exactly as the `cab_position` handler calls the
detector).  The claim and the spec's own test scenario require
STOPPED_EXTENDED to fire (inter-sample gap 600000 ms > 180000 ms,
displacement 0 < 0.05 km), but the code compares `Date.now() - last.ts`,
which is 0 here, so no trigger fires at all. -/
theorem stoppedExtended_dead_at_append :
    checkSilentDistress dzero 600000 "cab" mhStop emptyTrace 0 = [] ∧
    histStop.getLast? = some ⟨12.9, 77.5, 600000⟩ ∧
    prevSample histStop = some ⟨12.9, 77.5, 0⟩ ∧
    (180000 : ℤ) < 600000 - 0 ∧
    dzero 12.9 77.5 12.9 77.5 < 0.05 := by
  refine ⟨?_, rfl, rfl, by norm_num, by norm_num [dzero]⟩
  norm_num [checkSilentDistress, stoppedExtendedCond, rawDeviationPct, pathLength,
    stopStartsCount, lastInIsolated, mhStop, histStop, emptyTrace, dzero, prevSample]

/-- Claim C3: when a signature is supplied and fails verification against
the payload, the `/api/emergency` handler returns the 401 rejection,
appends nothing to the alert buffer, leaves the `lastAlertHash` pointer
unchanged, and broadcasts nothing — the returned state is exactly the input
state, since verification precedes every mutation. -/
theorem postEmergency_reject_atomic (shaA : AlertSha) (signA : AlertSign)
    (signP : EPayload → String) (verify : EPayload → String → Bool) (now : ℤ)
    (rand : String) (st : AlertState) (payload : EPayload) (s : String)
    (hver : verify payload s = false) :
    postEmergency shaA signA signP verify now rand st payload (some s) =
      (st, EmergencyResponse.rejected, []) := by
  unfold postEmergency
  simp [hver]

/-- Witness for C3: a rejecting verifier leaves the initial state intact. -/
theorem postEmergency_reject_atomic_witness :
    postEmergency shaAc signAc signPc verifyF 1 "r" initAlertState pay1 (some "bad") =
      (initAlertState, EmergencyResponse.rejected, []) :=
  postEmergency_reject_atomic shaAc signAc signPc verifyF 1 "r" initAlertState pay1 "bad" rfl

/-- Counterexample to C8 as stated: a buffered alert recorded at latitude 0
within the 2 km radius of the zone's centre (distance 0 ≤ 2) is NOT
returned by the replay — the JS truthiness guard `!a.lat || !a.lon`
excludes a latitude or longitude equal to 0. -/
theorem pendingForZone_excludes_zero_lat :
    forwardPendingAlertsToStation dzero zonesC [alertAtZeroLat] "z1" = [] ∧
    alertAtZeroLat.lat = some 0 ∧ alertAtZeroLat.lon = some 77 ∧
    dzero 0 77 0 77 ≤ 2 := by
  refine ⟨?_, rfl, rfl, by norm_num [dzero]⟩
  simp [forwardPendingAlertsToStation, zonesC, pendingPred, alertAtZeroLat, List.filter]

/-- Claim C8 (amended): for a registered zone, the pending-alert replay
returns exactly those buffered records that carry a present and nonzero
latitude and longitude and whose location is within 2 km of the zone's
centre; records with a missing — or exactly zero — coordinate are excluded
even when they lie inside the radius. -/
theorem pendingForZone_characterization (dist : Dist) (stations : List Zone)
    (buffer : List AlertRecord) (stationId : String) (st : Zone)
    (hfind : stations.find? (fun s => s.id = stationId) = some st)
    (a : AlertRecord) :
    a ∈ forwardPendingAlertsToStation dist stations buffer stationId ↔
      a ∈ buffer ∧ ∃ la lo, a.lat = some la ∧ a.lon = some lo ∧
        la ≠ 0 ∧ lo ≠ 0 ∧ dist la lo st.lat st.lon ≤ 2 := by
  unfold forwardPendingAlertsToStation
  rw [hfind, List.mem_filter]
  have hpred : pendingPred dist st.lat st.lon a = true ↔
      ∃ la lo, a.lat = some la ∧ a.lon = some lo ∧
        la ≠ 0 ∧ lo ≠ 0 ∧ dist la lo st.lat st.lon ≤ 2 := by
    unfold pendingPred
    cases hla : a.lat <;> cases hlo : a.lon <;> simp [hla, hlo]
    tauto
  rw [hpred]

/-- Witness for the amended C8: an alert with nonzero coordinates at the
zone's centre is replayed. -/
theorem pendingForZone_characterization_witness :
    alertInside ∈ forwardPendingAlertsToStation dzero zonesB [alertInside] "z1" :=
  (pendingForZone_characterization dzero zonesB [alertInside] "z1" ⟨"z1", 12.9, 77.5⟩
      rfl alertInside).mpr
    ⟨by simp, 12.9, 77.5, rfl, rfl, by norm_num, by norm_num, by norm_num [dzero]⟩

/-- Claim C9: one step of the `cab_position` history append — starting from
a history of length at most 20 with non-decreasing timestamps and a new
sample no older than any stored one (the server stamps samples with the
monotonic `Date.now()`), the appended history again has length at most 20
and non-decreasing timestamps, and on overflow (length exactly 20) the
oldest sample is evicted first, FIFO. -/
theorem appendPosition_invariant (h : List Sample) (s : Sample)
    (hlen : h.length ≤ 20) (hsort : tsSorted h) (hts : ∀ x ∈ h, x.ts ≤ s.ts) :
    (appendPosition h s).length ≤ 20 ∧ tsSorted (appendPosition h s) ∧
    appendPosition h s = (if h.length = 20 then h.drop 1 ++ [s] else h ++ [s]) := by
  have hcat : tsSorted (h ++ [s]) := by
    unfold tsSorted at *
    rw [List.chain'_append]
    refine ⟨hsort, List.chain'_singleton s, ?_⟩
    intro x hx y hy
    simp only [List.head?_cons, Option.mem_some_iff] at hy
    subst hy
    have hxmem : x ∈ h := by
      rcases List.mem_getLast?_eq_getLast hx with ⟨hne, hxe⟩
      rw [hxe]
      exact List.getLast_mem hne
    exact hts x hxmem
  unfold appendPosition
  by_cases h20 : h.length = 20
  · have hc : 20 < (h ++ [s]).length := by
      simp only [List.length_append, List.length_singleton]; omega
    have hd : (h ++ [s]).length - 20 = 1 := by
      simp only [List.length_append, List.length_singleton]; omega
    have hdrop : (h ++ [s]).drop 1 = h.drop 1 ++ [s] :=
      List.drop_append_of_le_length (by omega)
    rw [if_pos hc, hd, hdrop]
    refine ⟨?_, ?_, by rw [if_pos h20]⟩
    · simp only [List.length_append, List.length_singleton, List.length_drop]; omega
    · rw [← hdrop, List.drop_one]
      exact hcat.tail
  · have hc : ¬ 20 < (h ++ [s]).length := by
      simp only [List.length_append, List.length_singleton]; omega
    rw [if_neg hc]
    refine ⟨?_, hcat, by rw [if_neg h20]⟩
    simp only [List.length_append, List.length_singleton]; omega

/-- Witness for C9: appending a later sample to a sorted 2-sample history. -/
theorem appendPosition_invariant_witness :
    (appendPosition histTwo sampleNew).length ≤ 20 ∧
    tsSorted (appendPosition histTwo sampleNew) ∧
    appendPosition histTwo sampleNew =
      (if histTwo.length = 20 then histTwo.drop 1 ++ [sampleNew]
       else histTwo ++ [sampleNew]) :=
  appendPosition_invariant histTwo sampleNew (by norm_num [histTwo])
    (by norm_num [tsSorted, histTwo, List.chain'_cons])
    (by simp [histTwo, sampleNew])

/-- Claim C10: `predictNextStation` returns `null` whenever the last
sample's timestamp is not strictly greater than the second-to-last's
(`dt ≤ 0` — so the speed computation never divides by a zero or negative
duration), and under `dt > 0` the speed/bearing projection branch is the
only one taken: the result is the projected owning zone iff it differs from
the current one. -/
theorem predictNextStation_dt_guard (own : ℚ → ℚ → Station)
    (projLat projLon : Sample → Sample → ℚ) (cabId : String)
    (mh : String → List Sample) (last prev : Sample)
    (h2 : 2 ≤ (mh cabId).length)
    (hlast : (mh cabId).getLast? = some last)
    (hprev : prevSample (mh cabId) = some prev) :
    (last.ts ≤ prev.ts → predictNextStation own projLat projLon cabId mh = none) ∧
    (prev.ts < last.ts → predictNextStation own projLat projLon cabId mh =
      (if (own (projLat prev last) (projLon prev last)).id ≠ (own last.lat last.lon).id
       then some (own (projLat prev last) (projLon prev last)) else none)) := by
  have hnot : ¬ (mh cabId).length < 2 := by omega
  constructor
  · intro hle
    have hsub : ((last.ts : ℚ) - (prev.ts : ℚ)) ≤ 0 := by
      have : ((last.ts : ℚ)) ≤ ((prev.ts : ℚ)) := by exact_mod_cast hle
      linarith
    have hdt : ((last.ts : ℚ) - (prev.ts : ℚ)) / 1000 ≤ 0 :=
      div_nonpos_of_nonpos_of_nonneg hsub (by norm_num)
    unfold predictNextStation
    simp [hnot, hlast, hprev, hdt]
  · intro hlt
    have hsub : (0 : ℚ) < ((last.ts : ℚ) - (prev.ts : ℚ)) := by
      have : ((prev.ts : ℚ)) < ((last.ts : ℚ)) := by exact_mod_cast hlt
      linarith
    have hdt : ¬ ((last.ts : ℚ) - (prev.ts : ℚ)) / 1000 ≤ 0 := by
      push_neg
      positivity
    unfold predictNextStation
    simp [hnot, hlast, hprev, hdt]

/-- Witness for C10: a history whose last sample is older than its
predecessor yields no prediction. -/
theorem predictNextStation_dt_guard_witness :
    predictNextStation ownC projZ projZ "cab" mhBack = none :=
  (predictNextStation_dt_guard ownC projZ projZ "cab" mhBack ⟨0, 0, 3⟩ ⟨0, 0, 5⟩
      (by norm_num [mhBack]) (by norm_num [mhBack]) (by norm_num [mhBack, prevSample])).1
    (by norm_num)

end Saarthi
